import Mathlib

/-
Verification of the supersampling Mandelbrot renderer (src/main.go, the
Generator-based revision, which the claim line numbers refer to).

Embedding conventions:
- Go `float64` values are embedded as exact rationals (ℚ); `cmplx.Abs(v) > 2`
  is embedded as the exact test `normSq v > 4`.
- Go `int` is embedded as `Int`; Go's `uint8(i)` conversion is
  `(i % 256).toNat` (two's-complement truncation to the low 8 bits), and
  `uint32` arithmetic carries an explicit `% 4294967296`.
- `color.Color` values in play are either a `color.RGBA` literal or
  `color.Black` (a `Gray16`); `GoColor` has exactly those two cases, and
  `GoColor.RGBA` is the `RGBA()` widening method (8-bit channel c maps to
  c | c<<8 = c * 0x101; Black maps to (0,0,0,0xffff)).
- The shared `*image.RGBA` is a `Buffer`: a width/height pair plus a total
  pixel map; `img.Set` is a functional update after `color.RGBAModel`
  conversion.
- `context.Context` cancellation is a function `Nat → Bool` giving, for the
  check that precedes pixel `px` of a row, whether cancellation is observed
  there; goroutine scheduling is embedded as sequential row processing, which
  is faithful because rows write disjoint cells and the error channel is only
  inspected for emptiness / an arbitrary element (all rows fail with the same
  error string).
-/

namespace Mandel

/-- Go conversion `uint8(i)` for `i : int`: the low 8 bits. -/
def toUInt8 (i : Int) : Nat := (i % 256).toNat

/-- The `color.RGBA` struct: four 8-bit channels (stored values < 256). -/
structure RGBA8 where
  r : Nat
  g : Nat
  b : Nat
  a : Nat
deriving DecidableEq, Repr

/-- A quadruple of 16-bit-range channel values as returned by `Color.RGBA()`. -/
structure WideColor where
  r : Nat
  g : Nat
  b : Nat
  a : Nat
deriving DecidableEq, Repr

/-- The `color.Color` values this program handles: `color.RGBA` literals and
`color.Black` (a `Gray16` of luminance 0). -/
inductive GoColor where
  | rgba (c : RGBA8) : GoColor
  | black : GoColor
deriving DecidableEq, Repr

/-- The `RGBA()` method: widen each 8-bit channel c to c | c<<8 = c * 257;
`color.Black` yields (0, 0, 0, 0xffff). -/
def GoColor.RGBA : GoColor → WideColor
  | .rgba c => ⟨c.r % 256 * 257, c.g % 256 * 257, c.b % 256 * 257, c.a % 256 * 257⟩
  | .black => ⟨0, 0, 0, 65535⟩

/-- One step of the escape iteration: `v*v + z` in `complex128`,
written out over pairs of rationals. -/
def cstep (z v : ℚ × ℚ) : ℚ × ℚ :=
  (v.1 * v.1 - v.2 * v.2 + z.1, 2 * (v.1 * v.2) + z.2)

/-- Squared magnitude; `cmplx.Abs v > 2` is embedded as `normSq v > 4`. -/
def normSq (v : ℚ × ℚ) : ℚ := v.1 * v.1 + v.2 * v.2

/-- The value tested at loop iteration n of `mandelbrot`: starting from
v = 0, `mandelSeq z n` is the result of n+1 applications of `v ← v*v + z`. -/
def mandelSeq (z : ℚ × ℚ) : Nat → ℚ × ℚ
  | 0 => cstep z (0, 0)
  | n + 1 => cstep z (mandelSeq z n)

/-- The escaped-color literal of `Generator.mandelbrot` (src/main.go:286-291)
in `uint8` arithmetic, for 8-bit contrast `c8` and counter `n`:
R: 64 - c8*n, G: 80 - (c8*n)%128, B: 240 + (c8*n)%64, A: 255, where `c8*n`
wraps at 256 and the additions/subtractions wrap at 256. -/
def escapeColor (c8 n : Nat) : RGBA8 :=
  let t := c8 * n % 256
  ⟨(64 + 256 - t) % 256, (80 + 256 - t % 128) % 256, (240 + t % 64) % 256, 255⟩

/-- The loop of `Generator.mandelbrot` (src/main.go:283-293): counter n,
remaining iteration budget `fuel` (the loop runs while `n < uint8(maxIter)`,
so the initial budget is `toUInt8 maxIterations`). -/
def mandelLoop (c8 : Nat) (z : ℚ × ℚ) (v : ℚ × ℚ) (n fuel : Nat) : GoColor :=
  match fuel with
  | 0 => GoColor.black
  | fuel' + 1 =>
    let v' := cstep z v
    if 4 < normSq v' then GoColor.rgba (escapeColor c8 n)
    else mandelLoop c8 z v' (n + 1) fuel'

/-- The `ViewPort` sub-struct of `Parameters`. -/
structure ViewPortParams where
  XMin : ℚ
  YMin : ℚ
  XMax : ℚ
  YMax : ℚ
deriving DecidableEq, Repr

/-- The `Size` sub-struct of `Parameters`. -/
structure SizeParams where
  Width : Int
  Height : Int
deriving DecidableEq, Repr

/-- The `RenderOpts` sub-struct of `Parameters`. -/
structure RenderOptsParams where
  SubPixelSamples : Int
  MaxIterations : Int
  Contrast : Int
deriving DecidableEq, Repr

/-- The `Parameters` struct (src/main.go:157-171). -/
structure Parameters where
  ViewPort : ViewPortParams
  Size : SizeParams
  RenderOpts : RenderOptsParams
deriving DecidableEq, Repr

/-- `NewDefaultParameters` (src/main.go:176-188). -/
def NewDefaultParameters : Parameters :=
  ⟨⟨-2, -2, 2, 2⟩, ⟨1024, 1024⟩, ⟨4, 200, 15⟩⟩

/-- The `Generator` struct (src/main.go:153-155). -/
structure Generator where
  params : Parameters
deriving DecidableEq, Repr

/-- `Generator.mandelbrot` (src/main.go:281-295): run the escape loop from
v = 0 with counter bound `uint8(MaxIterations)` and 8-bit contrast. -/
def Generator.mandelbrot (g : Generator) (z : ℚ × ℚ) : GoColor :=
  mandelLoop (toUInt8 g.params.RenderOpts.Contrast) z (0, 0) 0
    (toUInt8 g.params.RenderOpts.MaxIterations)

/-- `ErrInvalidParameters` (src/main.go:174). -/
def ErrInvalidParameters : String := "invalid parameters"

/-- `validateParameters` (src/main.go:197-208): the first failing check's
error, or none. Each error wraps `ErrInvalidParameters`. -/
def validateParameters (p : Parameters) : Option String :=
  if p.ViewPort.XMax ≤ p.ViewPort.XMin ∨ p.ViewPort.YMax ≤ p.ViewPort.YMin then
    some (ErrInvalidParameters ++ ": invalid viewport range")
  else if p.Size.Width ≤ 0 ∨ p.Size.Height ≤ 0 then
    some (ErrInvalidParameters ++ ": invalid image size")
  else if p.RenderOpts.SubPixelSamples ≤ 0 then
    some (ErrInvalidParameters ++ ": invalid subpixel samples")
  else none

/-- `NewGenerator` (src/main.go:190-195): validate, and either wrap the
validation error as "invalid parameters: ..." or return the generator. -/
def NewGenerator (p : Parameters) : Except String Generator :=
  match validateParameters p with
  | some e => Except.error ("invalid parameters: " ++ e)
  | none => Except.ok ⟨p⟩

/-- The `*image.RGBA` buffer: `image.NewRGBA(image.Rect(0, 0, w, h))` plus
the pixel map (all channels start at zero). -/
structure Buffer where
  width : Int
  height : Int
  data : Nat → Nat → RGBA8

/-- `image.NewRGBA(image.Rect(0, 0, w, h))`: a zeroed width×height buffer. -/
def newRGBA (w h : Int) : Buffer := ⟨w, h, fun _ _ => ⟨0, 0, 0, 0⟩⟩

/-- `img.Set(px, py, c)` as a functional update. -/
def Buffer.set (buf : Buffer) (px py : Nat) (c : RGBA8) : Buffer :=
  { buf with data := fun px' py' => if px' = px ∧ py' = py then c else buf.data px' py' }

/-- `color.RGBAModel` conversion performed by `img.Set`: a `color.RGBA` is
kept as-is; any other color is widened by `RGBA()` and each channel shifted
right by 8 (so `color.Black` becomes (0, 0, 0, 255)). -/
def toRGBA8 : GoColor → RGBA8
  | .rgba c => c
  | .black => ⟨0, 0, 0, 255⟩

/-- One `r += cr; g += cg; b += cb; a += ca` step of `averageColors`
(src/main.go:305-309) in `uint32` arithmetic (each sum wraps at 2^32). -/
def sumStepWrap (acc : WideColor) (c : GoColor) : WideColor :=
  let w := c.RGBA
  ⟨(acc.r + w.r) % 4294967296, (acc.g + w.g) % 4294967296,
   (acc.b + w.b) % 4294967296, (acc.a + w.a) % 4294967296⟩

/-- The channel-sum loop of `averageColors` (src/main.go:303-310): four
`uint32` accumulators `r, g, b, a` starting at zero. -/
def sumRGBA (colors : List GoColor) : WideColor :=
  colors.foldl sumStepWrap ⟨0, 0, 0, 0⟩

/-- The divisor `n := uint32(len(colors))` of `averageColors`
(src/main.go:312): the length truncated to 32 bits. -/
def uint32OfLen (colors : List GoColor) : Nat := colors.length % 4294967296

/-- `averageColors` (src/main.go:298-319): empty input yields `color.Black`;
otherwise sum the widened channels in `uint32`, divide by the truncated
length, shift right by 8 and truncate each quotient to `uint8`. -/
def averageColors (colors : List GoColor) : GoColor :=
  if colors = [] then GoColor.black
  else
    let s := sumRGBA colors
    let n := uint32OfLen colors
    GoColor.rgba ⟨((s.r / n) >>> 8) % 256, ((s.g / n) >>> 8) % 256,
      ((s.b / n) >>> 8) % 256, ((s.a / n) >>> 8) % 256⟩

/-- One widened-channel addition at full precision (no wrap). -/
def sumStep (acc : WideColor) (c : GoColor) : WideColor :=
  let w := c.RGBA
  ⟨acc.r + w.r, acc.g + w.g, acc.b + w.b, acc.a + w.a⟩

/-- The plain (unwrapped) channel sums of the widened colors. -/
def widenedSums (colors : List GoColor) : WideColor :=
  colors.foldl sumStep ⟨0, 0, 0, 0⟩

/-- Modelled from the spec (section 4.2 step 4): widen each channel, sum
across samples at full precision, divide by the sample count, then narrow
back to 8 bits by discarding the low-order bits. Used only to compare
against `averageColors`. -/
def averageColorsSpec (colors : List GoColor) : GoColor :=
  if colors = [] then GoColor.black
  else
    let s := widenedSums colors
    let n := colors.length
    GoColor.rgba ⟨((s.r / n) >>> 8) % 256, ((s.g / n) >>> 8) % 256,
      ((s.b / n) >>> 8) % 256, ((s.a / n) >>> 8) % 256⟩

/-- `Generator.getSamples` (src/main.go:266-279): the pixel's own point and
three offsets by the sampling width/height, each fed to `mandelbrot`. -/
def Generator.getSamples (g : Generator) (x y samplingWidth samplingHeight : ℚ) :
    List GoColor :=
  let points : List (ℚ × ℚ) :=
    [(x, y), (x + samplingWidth, y), (x + samplingWidth, y + samplingHeight),
     (x, y + samplingHeight)]
  points.map (fun p => g.mandelbrot p)

/-- `samplingWidth` as computed in `Generate` (src/main.go:218):
0.5 / width * (XMax - XMin). -/
def Generator.samplingWidth (g : Generator) : ℚ :=
  1 / 2 / (g.params.Size.Width : ℚ) * (g.params.ViewPort.XMax - g.params.ViewPort.XMin)

/-- `samplingHeight` as computed in `Generate` (src/main.go:219):
0.5 / height * (YMax - YMin). -/
def Generator.samplingHeight (g : Generator) : ℚ :=
  1 / 2 / (g.params.Size.Height : ℚ) * (g.params.ViewPort.YMax - g.params.ViewPort.YMin)

/-- The plane x-coordinate of pixel column px (src/main.go:256):
px / width * (XMax - XMin) + XMin. -/
def xcoord (g : Generator) (px : Nat) : ℚ :=
  (px : ℚ) / (g.params.Size.Width : ℚ) * (g.params.ViewPort.XMax - g.params.ViewPort.XMin)
    + g.params.ViewPort.XMin

/-- The plane y-coordinate of row py (src/main.go:249):
py / height * (YMax - YMin) + YMin. -/
def ycoord (g : Generator) (py : Nat) : ℚ :=
  (py : ℚ) / (g.params.Size.Height : ℚ) * (g.params.ViewPort.YMax - g.params.ViewPort.YMin)
    + g.params.ViewPort.YMin

/-- The pixel loop of `processRow` (src/main.go:251-261). `ctx px` says
whether cancellation is observed at the `select` preceding pixel px; `fuel`
is the number of columns still to process. On a raised signal the row stops
at once with `ctx.Err()` ("context canceled"), keeping the buffer as-is. -/
def rowLoop (ctx : Nat → Bool) (g : Generator) (py : Nat) (y sw sh : ℚ) :
    Nat → Nat → Buffer → Buffer × Option String
  | 0, _, buf => (buf, none)
  | fuel + 1, px, buf =>
    if ctx px then (buf, some "context canceled")
    else
      let x := xcoord g px
      let samples := g.getSamples x y sw sh
      let avgColor := averageColors samples
      rowLoop ctx g py y sw sh fuel (px + 1) (buf.set px py (toRGBA8 avgColor))

/-- `Generator.processRow` (src/main.go:248-263): compute the row's plane
y-coordinate and process the `width` pixel columns left to right. -/
def Generator.processRow (g : Generator) (ctx : Nat → Bool) (py : Nat)
    (buf : Buffer) (sw sh : ℚ) : Buffer × Option String :=
  rowLoop ctx g py (ycoord g py) sw sh g.params.Size.Width.toNat 0 buf

/-- The per-row dispatch of `Generate` (src/main.go:225-233), with the error
channel as the list of errors the rows reported. Rows own disjoint buffer
cells, so the concurrent fan-out is embedded as a left-to-right fold. -/
def genRows (ctx : Nat → Bool) (g : Generator) (sw sh : ℚ) :
    Nat → Nat → Buffer → Buffer × List String
  | 0, _, buf => (buf, [])
  | fuel + 1, py, buf =>
    let r := g.processRow ctx py buf sw sh
    let rest := genRows ctx g sw sh fuel (py + 1) r.1
    (rest.1, match r.2 with
      | some e => e :: rest.2
      | none => rest.2)

/-- `Generator.Generate` (src/main.go:215-245): allocate the buffer, compute
the sampling offsets, process every row, then fail with the first collected
row error (wrapped as "error processing row: ...") or return the buffer. -/
def Generator.Generate (g : Generator) (ctx : Nat → Bool) : Except String Buffer :=
  let img := newRGBA g.params.Size.Width g.params.Size.Height
  let r := genRows ctx g g.samplingWidth g.samplingHeight g.params.Size.Height.toNat 0 img
  match r.2 with
  | [] => Except.ok r.1
  | e :: _ => Except.error ("error processing row: " ++ e)

/-- The color `processRow` writes at column px of a row with plane
y-coordinate y: the average of the four supersample colors, converted by
`img.Set`. -/
def rowPixel (g : Generator) (y sw sh : ℚ) (px : Nat) : RGBA8 :=
  toRGBA8 (averageColors (g.getSamples (xcoord g px) y sw sh))

/-- Componentwise reduction of a channel quadruple mod 2^32. -/
def wcMod (w : WideColor) : WideColor :=
  ⟨w.r % 4294967296, w.g % 4294967296, w.b % 4294967296, w.a % 4294967296⟩

/-- Default parameters with the contrast overridden to 100. -/
def paramsContrast100 : Parameters :=
  ⟨⟨-2, -2, 2, 2⟩, ⟨1024, 1024⟩, ⟨4, 200, 100⟩⟩

/-- Default parameters with the iteration bound overridden to 512. -/
def paramsMax512 : Parameters :=
  ⟨⟨-2, -2, 2, 2⟩, ⟨1024, 1024⟩, ⟨4, 512, 15⟩⟩

/-- A small valid parameter set: unit viewport, one pixel, one iteration. -/
def paramsUnit : Parameters := ⟨⟨0, 0, 1, 1⟩, ⟨1, 1⟩, ⟨4, 1, 15⟩⟩

/-- Unfolding the escape loop at fuel zero. -/
theorem mandelLoop_zero (c8 : Nat) (z v : ℚ × ℚ) (n : Nat) :
    mandelLoop c8 z v n 0 = GoColor.black := rfl

/-- Unfolding one iteration of the escape loop. -/
theorem mandelLoop_succ (c8 : Nat) (z v : ℚ × ℚ) (n fuel : Nat) :
    mandelLoop c8 z v n (fuel + 1) =
      if 4 < normSq (cstep z v) then GoColor.rgba (escapeColor c8 n)
      else mandelLoop c8 z (cstep z v) (n + 1) fuel := rfl

/-- If the first tested value whose squared magnitude exceeds 4 is
`mandelSeq z m` and the loop has enough fuel to reach it, the loop returns
the escape color at counter m. -/
theorem mandelLoop_escape (c8 : Nat) (z : ℚ × ℚ) :
    ∀ (fuel n m : Nat) (v : ℚ × ℚ), cstep z v = mandelSeq z n →
      n ≤ m → m < n + fuel →
      (∀ j, n ≤ j → j < m → normSq (mandelSeq z j) ≤ 4) →
      4 < normSq (mandelSeq z m) →
      mandelLoop c8 z v n fuel = GoColor.rgba (escapeColor c8 m) := by
  intro fuel
  induction fuel with
  | zero => intro n m v _ hnm hm _ _; omega
  | succ fuel ih =>
    intro n m v hv hnm hm hle hesc
    rcases Nat.eq_or_lt_of_le hnm with heq | hlt
    · subst heq
      rw [mandelLoop_succ, hv, if_pos hesc]
    · have hn4 : normSq (mandelSeq z n) ≤ 4 := hle n le_rfl hlt
      rw [mandelLoop_succ, hv, if_neg (not_lt.mpr hn4)]
      exact ih (n + 1) m (mandelSeq z n) rfl hlt (by omega)
        (fun j hj hj' => hle j (by omega) hj') hesc

/-- If no tested value within the fuel window exceeds the threshold, the
loop exhausts its fuel and returns black. -/
theorem mandelLoop_black (c8 : Nat) (z : ℚ × ℚ) :
    ∀ (fuel n : Nat) (v : ℚ × ℚ), cstep z v = mandelSeq z n →
      (∀ j, n ≤ j → j < n + fuel → normSq (mandelSeq z j) ≤ 4) →
      mandelLoop c8 z v n fuel = GoColor.black := by
  intro fuel
  induction fuel with
  | zero => intro n v _ _; rfl
  | succ fuel ih =>
    intro n v hv hle
    have hn4 : normSq (mandelSeq z n) ≤ 4 := hle n le_rfl (by omega)
    rw [mandelLoop_succ, hv, if_neg (not_lt.mpr hn4)]
    exact ih (n + 1) (mandelSeq z n) rfl (fun j hj hj' => hle j (by omega) (by omega))

/-- `mandelbrot` at a point whose first escape happens at tested index m
inside the iteration bound. -/
theorem mandelbrot_escape (g : Generator) (z : ℚ × ℚ) (m : Nat)
    (hm : m < toUInt8 g.params.RenderOpts.MaxIterations)
    (hle : ∀ j, j < m → normSq (mandelSeq z j) ≤ 4)
    (hesc : 4 < normSq (mandelSeq z m)) :
    g.mandelbrot z =
      GoColor.rgba (escapeColor (toUInt8 g.params.RenderOpts.Contrast) m) :=
  mandelLoop_escape _ z _ 0 m (0, 0) rfl (Nat.zero_le m) (by omega)
    (fun j _ hj => hle j hj) hesc

/-- `mandelbrot` returns black exactly when no tested value within the
(8-bit truncated) iteration bound exceeds the threshold. -/
theorem mandelbrot_black_iff (g : Generator) (z : ℚ × ℚ) :
    g.mandelbrot z = GoColor.black ↔
      ∀ n, n < toUInt8 g.params.RenderOpts.MaxIterations →
        normSq (mandelSeq z n) ≤ 4 := by
  constructor
  · intro hb
    by_contra hc
    push_neg at hc
    obtain ⟨n0, hn0, h4⟩ := hc
    have hex : ∃ n, 4 < normSq (mandelSeq z n) := ⟨n0, h4⟩
    have hfind := Nat.find_spec hex
    have hmin := fun j (hj : j < Nat.find hex) => Nat.find_min hex hj
    have hmlt : Nat.find hex < toUInt8 g.params.RenderOpts.MaxIterations :=
      lt_of_le_of_lt (Nat.find_min' hex h4) hn0
    have := mandelbrot_escape g z (Nat.find hex) hmlt
      (fun j hj => not_lt.mp (hmin j hj)) hfind
    rw [hb] at this
    exact GoColor.noConfusion this
  · intro hle
    exact mandelLoop_black _ z _ 0 (0, 0) rfl (fun j _ hj => hle j (by omega))

/-- Every color the escape loop can return has full 16-bit alpha. -/
theorem mandelLoop_alpha (c8 : Nat) (z : ℚ × ℚ) :
    ∀ (fuel n : Nat) (v : ℚ × ℚ), ((mandelLoop c8 z v n fuel).RGBA).a = 65535 := by
  intro fuel
  induction fuel with
  | zero => intro n v; rfl
  | succ fuel ih =>
    intro n v
    rw [mandelLoop_succ]
    by_cases h : 4 < normSq (cstep z v)
    · rw [if_pos h]; simp [GoColor.RGBA, escapeColor]
    · rw [if_neg h]; exact ih (n + 1) (cstep z v)

/-- The wrapping channel-sum fold is the plain fold reduced mod 2^32. -/
theorem foldl_sumStepWrap (cs : List GoColor) :
    ∀ acc : WideColor,
      cs.foldl sumStepWrap (wcMod acc) = wcMod (cs.foldl sumStep acc) := by
  induction cs with
  | nil => intro acc; rfl
  | cons c cs ih =>
    intro acc
    have hstep : sumStepWrap (wcMod acc) c = wcMod (sumStep acc c) := by
      simp [sumStepWrap, sumStep, wcMod, Nat.mod_add_mod]
    rw [List.foldl_cons, List.foldl_cons, hstep, ih (sumStep acc c)]

/-- `sumRGBA` is `widenedSums` with every channel reduced mod 2^32. -/
theorem sumRGBA_eq_wcMod (cs : List GoColor) : sumRGBA cs = wcMod (widenedSums cs) := by
  rw [sumRGBA, widenedSums]
  exact foldl_sumStepWrap cs ⟨0, 0, 0, 0⟩

/-- Unfolding the pixel loop at fuel zero. -/
theorem rowLoop_zero (ctx : Nat → Bool) (g : Generator) (py : Nat) (y sw sh : ℚ)
    (px : Nat) (buf : Buffer) :
    rowLoop ctx g py y sw sh 0 px buf = (buf, none) := rfl

/-- Unfolding one column of the pixel loop. -/
theorem rowLoop_succ (ctx : Nat → Bool) (g : Generator) (py : Nat) (y sw sh : ℚ)
    (fuel px : Nat) (buf : Buffer) :
    rowLoop ctx g py y sw sh (fuel + 1) px buf =
      if ctx px then (buf, some "context canceled")
      else rowLoop ctx g py y sw sh fuel (px + 1)
        (buf.set px py (rowPixel g y sw sh px)) := rfl

/-- With no cancellation observed in its window, the pixel loop reports no
error and writes exactly the columns of its window, in row py. -/
theorem rowLoop_no_cancel (ctx : Nat → Bool) (g : Generator) (py : Nat) (y sw sh : ℚ) :
    ∀ (fuel px : Nat) (buf : Buffer),
      (∀ i, px ≤ i → i < px + fuel → ctx i = false) →
      (rowLoop ctx g py y sw sh fuel px buf).2 = none ∧
      (rowLoop ctx g py y sw sh fuel px buf).1.width = buf.width ∧
      (rowLoop ctx g py y sw sh fuel px buf).1.height = buf.height ∧
      ∀ px' py', (rowLoop ctx g py y sw sh fuel px buf).1.data px' py' =
        if px ≤ px' ∧ px' < px + fuel ∧ py' = py
        then rowPixel g y sw sh px' else buf.data px' py' := by
  intro fuel
  induction fuel with
  | zero =>
    intro px buf _
    refine ⟨rfl, rfl, rfl, fun px' py' => ?_⟩
    rw [rowLoop_zero, if_neg (by omega)]
  | succ fuel ih =>
    intro px buf h
    have hpx : ctx px = false := h px le_rfl (by omega)
    rw [rowLoop_succ, hpx, if_neg Bool.false_ne_true]
    obtain ⟨h2, hw, hh, hdata⟩ := ih (px + 1) (buf.set px py (rowPixel g y sw sh px))
      (fun i hi hi' => h i (by omega) (by omega))
    refine ⟨h2, hw, hh, fun px' py' => ?_⟩
    rw [hdata px' py']
    by_cases hcond : px + 1 ≤ px' ∧ px' < px + 1 + fuel ∧ py' = py
    · rw [if_pos hcond, if_pos ⟨by omega, by omega, hcond.2.2⟩]
    · rw [if_neg hcond]
      show (if px' = px ∧ py' = py then rowPixel g y sw sh px else buf.data px' py') = _
      by_cases hpq : px' = px ∧ py' = py
      · rw [if_pos hpq, if_pos ⟨by omega, by omega, hpq.2⟩, hpq.1]
      · rw [if_neg hpq]
        have : ¬(px ≤ px' ∧ px' < px + (fuel + 1) ∧ py' = py) := by
          rintro ⟨ha, hb, hc⟩
          rcases Nat.eq_or_lt_of_le ha with h1 | h1
          · exact hpq ⟨h1.symm, hc⟩
          · exact hcond ⟨by omega, by omega, hc⟩
        rw [if_neg this]

/-- If the cancellation signal is first observed at the check preceding
column k inside the window, the pixel loop writes exactly columns
[px, k), then stops with the cancellation error. -/
theorem rowLoop_cancel (ctx : Nat → Bool) (g : Generator) (py : Nat) (y sw sh : ℚ)
    (k : Nat) (hsig : ∀ i, ctx i = decide (k ≤ i)) :
    ∀ (fuel px : Nat) (buf : Buffer), px ≤ k → k < px + fuel →
      (rowLoop ctx g py y sw sh fuel px buf).2 = some "context canceled" ∧
      (rowLoop ctx g py y sw sh fuel px buf).1.width = buf.width ∧
      (rowLoop ctx g py y sw sh fuel px buf).1.height = buf.height ∧
      ∀ px' py', (rowLoop ctx g py y sw sh fuel px buf).1.data px' py' =
        if px ≤ px' ∧ px' < k ∧ py' = py
        then rowPixel g y sw sh px' else buf.data px' py' := by
  intro fuel
  induction fuel with
  | zero => intro px buf hpk hk; omega
  | succ fuel ih =>
    intro px buf hpk hk
    rcases Nat.eq_or_lt_of_le hpk with heq | hlt
    · have hpx : ctx px = true := by rw [hsig px]; simp [heq]
      rw [rowLoop_succ, hpx, if_pos rfl]
      exact ⟨rfl, rfl, rfl, fun px' py' => by rw [if_neg (by omega)]⟩
    · have hpx : ctx px = false := by rw [hsig px]; simp; omega
      rw [rowLoop_succ, hpx, if_neg Bool.false_ne_true]
      obtain ⟨h2, hw, hh, hdata⟩ := ih (px + 1)
        (buf.set px py (rowPixel g y sw sh px)) hlt (by omega)
      refine ⟨h2, hw, hh, fun px' py' => ?_⟩
      rw [hdata px' py']
      by_cases hcond : px + 1 ≤ px' ∧ px' < k ∧ py' = py
      · rw [if_pos hcond, if_pos ⟨by omega, by omega, hcond.2.2⟩]
      · rw [if_neg hcond]
        show (if px' = px ∧ py' = py then rowPixel g y sw sh px else buf.data px' py') = _
        by_cases hpq : px' = px ∧ py' = py
        · rw [if_pos hpq, if_pos ⟨by omega, by omega, hpq.2⟩, hpq.1]
        · rw [if_neg hpq]
          have : ¬(px ≤ px' ∧ px' < k ∧ py' = py) := by
            rintro ⟨ha, hb, hc⟩
            rcases Nat.eq_or_lt_of_le ha with h1 | h1
            · exact hpq ⟨h1.symm, hc⟩
            · exact hcond ⟨by omega, by omega, hc⟩
          rw [if_neg this]

/-- Unfolding the row dispatch at fuel zero. -/
theorem genRows_zero (ctx : Nat → Bool) (g : Generator) (sw sh : ℚ) (py : Nat)
    (buf : Buffer) : genRows ctx g sw sh 0 py buf = (buf, []) := rfl

/-- Unfolding one row of the row dispatch. -/
theorem genRows_succ (ctx : Nat → Bool) (g : Generator) (sw sh : ℚ) (fuel py : Nat)
    (buf : Buffer) :
    genRows ctx g sw sh (fuel + 1) py buf =
      ((genRows ctx g sw sh fuel (py + 1) (g.processRow ctx py buf sw sh).1).1,
        match (g.processRow ctx py buf sw sh).2 with
        | some e => e :: (genRows ctx g sw sh fuel (py + 1) (g.processRow ctx py buf sw sh).1).2
        | none => (genRows ctx g sw sh fuel (py + 1) (g.processRow ctx py buf sw sh).1).2) := rfl

/-- With no cancellation, the row dispatch collects no error and fills
exactly its window of rows across all columns. -/
theorem genRows_no_cancel (ctx : Nat → Bool) (g : Generator) (sw sh : ℚ)
    (hctx : ∀ i, ctx i = false) :
    ∀ (fuel py : Nat) (buf : Buffer),
      (genRows ctx g sw sh fuel py buf).2 = [] ∧
      (genRows ctx g sw sh fuel py buf).1.width = buf.width ∧
      (genRows ctx g sw sh fuel py buf).1.height = buf.height ∧
      ∀ px' py', (genRows ctx g sw sh fuel py buf).1.data px' py' =
        if px' < g.params.Size.Width.toNat ∧ py ≤ py' ∧ py' < py + fuel
        then rowPixel g (ycoord g py') sw sh px' else buf.data px' py' := by
  intro fuel
  induction fuel with
  | zero =>
    intro py buf
    exact ⟨rfl, rfl, rfl, fun px' py' => by rw [genRows_zero, if_neg (by omega)]⟩
  | succ fuel ih =>
    intro py buf
    obtain ⟨r2, rw', rh, rdata⟩ := rowLoop_no_cancel ctx g py (ycoord g py) sw sh
      g.params.Size.Width.toNat 0 buf (fun i _ _ => hctx i)
    obtain ⟨g2, gw, gh, gdata⟩ := ih (py + 1) (g.processRow ctx py buf sw sh).1
    rw [genRows_succ]
    have hr2 : (g.processRow ctx py buf sw sh).2 = none := r2
    rw [hr2]
    refine ⟨g2, gw.trans rw', gh.trans rh, fun px' py' => ?_⟩
    rw [gdata px' py']
    by_cases hcond : px' < g.params.Size.Width.toNat ∧ py + 1 ≤ py' ∧ py' < py + 1 + fuel
    · rw [if_pos hcond, if_pos ⟨hcond.1, by omega, by omega⟩]
    · rw [if_neg hcond]
      have hrdata : (g.processRow ctx py buf sw sh).1.data px' py' =
          if 0 ≤ px' ∧ px' < 0 + g.params.Size.Width.toNat ∧ py' = py
          then rowPixel g (ycoord g py) sw sh px' else buf.data px' py' := rdata px' py'
      rw [hrdata]
      by_cases hpq : 0 ≤ px' ∧ px' < 0 + g.params.Size.Width.toNat ∧ py' = py
      · rw [if_pos hpq, if_pos ⟨by omega, by omega, by omega⟩, hpq.2.2]
      · rw [if_neg hpq]
        have : ¬(px' < g.params.Size.Width.toNat ∧ py ≤ py' ∧ py' < py + (fuel + 1)) := by
          rintro ⟨ha, hb, hc⟩
          rcases Nat.eq_or_lt_of_le hb with h1 | h1
          · exact hpq ⟨by omega, by omega, h1.symm⟩
          · exact hcond ⟨ha, by omega, by omega⟩
        rw [if_neg this]

/-- A row started under an already-raised cancellation signal stops before
its first pixel, reporting the context error and leaving the buffer as it
was given. -/
theorem processRow_cancelled (g : Generator) (py : Nat) (buf : Buffer) (sw sh : ℚ)
    (hW : 0 < g.params.Size.Width.toNat) :
    g.processRow (fun _ => true) py buf sw sh = (buf, some "context canceled") := by
  rw [Generator.processRow]
  obtain ⟨wn, hwn⟩ := Nat.exists_eq_succ_of_ne_zero (Nat.pos_iff_ne_zero.mp hW)
  rw [hwn]
  rfl

/-- Under an already-raised cancellation signal (and at least one pixel
column), every dispatched row fails with the context error and the buffer
is returned exactly as allocated. -/
theorem genRows_cancelled (g : Generator) (sw sh : ℚ)
    (hW : 0 < g.params.Size.Width.toNat) :
    ∀ (fuel py : Nat) (buf : Buffer),
      genRows (fun _ => true) g sw sh fuel py buf =
        (buf, List.replicate fuel "context canceled") := by
  intro fuel
  induction fuel with
  | zero => intro py buf; rfl
  | succ fuel ih =>
    intro py buf
    rw [genRows_succ, processRow_cancelled g py buf sw sh hW, ih (py + 1) buf]
    rfl

/-- C1 (amended): for a point first escaping at tested index n inside the
iteration bound, the returned channels are R = (64 − c·n) mod 256,
G = (80 − ((c·n) mod 128)) mod 256, B = (240 + ((c·n) mod 64)) mod 256,
A = 255, where c is the contrast truncated to 8 bits and c·n wraps at 256:
the inner modulus (128 for G, 64 for B) applies to the contrast·n term
before the subtraction/addition, which itself wraps at 256 — not after it
as the claim states. -/
theorem C1_escape_color_channels (p : Parameters) (z : ℚ × ℚ) (n : Nat)
    (hn : n < toUInt8 p.RenderOpts.MaxIterations)
    (hfirst : ∀ j, j < n → normSq (mandelSeq z j) ≤ 4)
    (hesc : 4 < normSq (mandelSeq z n)) :
    (Generator.mk p).mandelbrot z =
      GoColor.rgba
        ⟨(64 + 256 - toUInt8 p.RenderOpts.Contrast * n % 256) % 256,
         (80 + 256 - toUInt8 p.RenderOpts.Contrast * n % 128) % 256,
         (240 + toUInt8 p.RenderOpts.Contrast * n % 64) % 256,
         255⟩ := by
  rw [mandelbrot_escape (Generator.mk p) z n hn hfirst hesc]
  have h128 : toUInt8 p.RenderOpts.Contrast * n % 256 % 128 =
      toUInt8 p.RenderOpts.Contrast * n % 128 := Nat.mod_mod_of_dvd _ (by norm_num)
  have h64 : toUInt8 p.RenderOpts.Contrast * n % 256 % 64 =
      toUInt8 p.RenderOpts.Contrast * n % 64 := Nat.mod_mod_of_dvd _ (by norm_num)
  simp only [escapeColor, h128, h64]

/-- C1 witness: z = 2 with contrast 100 first escapes at tested index 1;
the theorem yields channels (220, 236, 20, 255). -/
theorem C1_escape_color_channels_witness :
    (1 < toUInt8 paramsContrast100.RenderOpts.MaxIterations) ∧
    (4 < normSq (mandelSeq (2, 0) 1)) ∧
    (Generator.mk paramsContrast100).mandelbrot (2, 0) =
      GoColor.rgba ⟨220, 236, 20, 255⟩ := by
  refine ⟨by decide, by norm_num [mandelSeq, cstep, normSq], ?_⟩
  have h := C1_escape_color_channels paramsContrast100 (2, 0) 1 (by decide)
    (by intro j hj; interval_cases j; norm_num [mandelSeq, cstep, normSq])
    (by norm_num [mandelSeq, cstep, normSq])
  rw [h]; rfl

/-- C1 counterexample: the claim's B formula (240 + contrast·n) mod 64
forces an escaped B channel below 64, but at z = 3 (escaped at tested
index 0, default contrast 15) the code returns B = 240. -/
theorem C1_counterexample :
    (Generator.mk NewDefaultParameters).mandelbrot (3, 0) =
      GoColor.rgba ⟨64, 80, 240, 255⟩ ∧
    4 < normSq (mandelSeq (3, 0) 0) ∧
    ¬((240 : Nat) < 64) := by
  refine ⟨?_, by norm_num [mandelSeq, cstep, normSq], by norm_num⟩
  show mandelLoop 15 (3, 0) (0, 0) 0 200 = _
  rw [show (200 : Nat) = 199 + 1 from rfl, mandelLoop_succ,
    if_pos (by norm_num [cstep, normSq])]
  rfl

/-- C2 (amended): `mandelbrot` iterates at most `maxIterations mod 256`
steps (the loop bound is the value truncated to `uint8`, so a bound that is
a multiple of 256 — e.g. 512 — runs zero iterations), returns black exactly
when no tested value within that truncated bound exceeds magnitude 2, and
colors the never-escaping point (0,0) opaque black for every bound. -/
theorem C2_black_iff (p : Parameters) (z : ℚ × ℚ) :
    ((Generator.mk p).mandelbrot z = GoColor.black ↔
      ∀ n, n < toUInt8 p.RenderOpts.MaxIterations → normSq (mandelSeq z n) ≤ 4) ∧
    (Generator.mk p).mandelbrot (0, 0) = GoColor.black := by
  refine ⟨mandelbrot_black_iff _ z, (mandelbrot_black_iff _ _).mpr ?_⟩
  have h0 : ∀ m : Nat, mandelSeq (0, 0) m = ((0 : ℚ), (0 : ℚ)) := by
    intro m
    induction m with
    | zero => norm_num [mandelSeq, cstep]
    | succ m ih => rw [mandelSeq, ih]; norm_num [cstep]
  intro n _
  rw [h0 n]; norm_num [normSq]

/-- C2 witness: the in-set point (0,0) renders black under the small valid
parameter set. -/
theorem C2_black_iff_witness :
    (Generator.mk paramsUnit).mandelbrot (0, 0) = GoColor.black :=
  (C2_black_iff paramsUnit (0, 0)).2

/-- C2 counterexample: with maxIterations = 512 the `uint8` loop bound is
0, so z = 3 is returned black although its magnitude exceeds 2 at the very
first step (well within 512 steps) — the point is not iterated at all. -/
theorem C2_counterexample :
    (Generator.mk paramsMax512).mandelbrot (3, 0) = GoColor.black ∧
    4 < normSq (mandelSeq (3, 0) 0) ∧
    (0 : Nat) < 512 := by
  refine ⟨?_, by norm_num [mandelSeq, cstep, normSq], by norm_num⟩
  show mandelLoop 15 (3, 0) (0, 0) 0 0 = _
  rfl

/-- C3 (amended): a point whose iterated magnitude first exceeds 2 exactly
at the k-th application of v ← v² + c (k ≥ 1, within the truncated bound)
receives the escaped color formula evaluated at counter n = k − 1, not at
n = k: the loop counter starts at 0 and is read before being incremented
past the escaping step. `mandelSeq z j` is the value after j+1
applications, so the k-th application is tested at index k − 1. -/
theorem C3_escape_index (p : Parameters) (z : ℚ × ℚ) (k : Nat) (_hk : 0 < k)
    (hbound : k - 1 < toUInt8 p.RenderOpts.MaxIterations)
    (hfirst : ∀ j, j < k - 1 → normSq (mandelSeq z j) ≤ 4)
    (hesc : 4 < normSq (mandelSeq z (k - 1))) :
    (Generator.mk p).mandelbrot z =
      GoColor.rgba (escapeColor (toUInt8 p.RenderOpts.Contrast) (k - 1)) :=
  mandelbrot_escape _ z (k - 1) hbound hfirst hesc

/-- C3 witness: z = 2 first exceeds magnitude 2 at the 2nd application
(k = 2), and with contrast 15 the code colors it with the formula at
counter 1: (49, 65, 255, 255). -/
theorem C3_escape_index_witness :
    (0 < 2) ∧
    (2 - 1 < toUInt8 NewDefaultParameters.RenderOpts.MaxIterations) ∧
    (4 < normSq (mandelSeq (2, 0) (2 - 1))) ∧
    (Generator.mk NewDefaultParameters).mandelbrot (2, 0) =
      GoColor.rgba ⟨49, 65, 255, 255⟩ := by
  refine ⟨by norm_num, by decide, by norm_num [mandelSeq, cstep, normSq], ?_⟩
  have h := C3_escape_index NewDefaultParameters (2, 0) 2 (by norm_num) (by decide)
    (by intro j hj; interval_cases j; norm_num [mandelSeq, cstep, normSq])
    (by norm_num [mandelSeq, cstep, normSq])
  rw [h]; rfl

/-- C3 counterexample: z = 2 (default parameters) first exceeds magnitude 2
exactly at the 2nd application, yet the returned color is the formula at
counter 1, which differs from the formula at counter 2 demanded by the
claim. -/
theorem C3_counterexample :
    normSq (mandelSeq (2, 0) 0) ≤ 4 ∧
    4 < normSq (mandelSeq (2, 0) 1) ∧
    (Generator.mk NewDefaultParameters).mandelbrot (2, 0) =
      GoColor.rgba ⟨49, 65, 255, 255⟩ ∧
    GoColor.rgba ⟨49, 65, 255, 255⟩ ≠
      GoColor.rgba (escapeColor (toUInt8 NewDefaultParameters.RenderOpts.Contrast) 2) := by
  refine ⟨by norm_num [mandelSeq, cstep, normSq],
    by norm_num [mandelSeq, cstep, normSq], ?_, by decide⟩
  show mandelLoop 15 (2, 0) (0, 0) 0 200 = _
  rw [show (200 : Nat) = 199 + 1 from rfl, mandelLoop_succ,
    if_neg (by norm_num [cstep, normSq])]
  rw [show (199 : Nat) = 198 + 1 from rfl, mandelLoop_succ,
    if_pos (by norm_num [cstep, normSq])]
  rfl

/-- C4 (confirmed): `getSamples` returns exactly the four colors of the
pixel's own point and its right / right+down / down half-pixel offsets, the
sampling offsets are 0.5/width·(XMax−XMin) and 0.5/height·(YMax−YMin), and
the count of 4 does not depend on the `SubPixelSamples` parameter. -/
theorem C4_four_samples (p : Parameters) (x y sw sh : ℚ) (m : Int) :
    ((Generator.mk p).getSamples x y sw sh).length = 4 ∧
    (Generator.mk p).getSamples x y sw sh =
      [(Generator.mk p).mandelbrot (x, y),
       (Generator.mk p).mandelbrot (x + sw, y),
       (Generator.mk p).mandelbrot (x + sw, y + sh),
       (Generator.mk p).mandelbrot (x, y + sh)] ∧
    (Generator.mk p).samplingWidth =
      1 / 2 / (p.Size.Width : ℚ) * (p.ViewPort.XMax - p.ViewPort.XMin) ∧
    (Generator.mk p).samplingHeight =
      1 / 2 / (p.Size.Height : ℚ) * (p.ViewPort.YMax - p.ViewPort.YMin) ∧
    (Generator.mk
        { p with RenderOpts := { p.RenderOpts with SubPixelSamples := m } }).getSamples
      x y sw sh = (Generator.mk p).getSamples x y sw sh :=
  ⟨rfl, rfl, rfl, rfl, rfl⟩

/-- C9 (confirmed): `mandelbrot` reads the contrast only through
`uint8(Contrast)`, so reducing the contrast mod 256 leaves every returned
color unchanged, for every point and parameter set. -/
theorem C9_contrast_mod (p : Parameters) (z : ℚ × ℚ) :
    (Generator.mk
        { p with RenderOpts :=
            { p.RenderOpts with Contrast := p.RenderOpts.Contrast % 256 } }).mandelbrot z
      = (Generator.mk p).mandelbrot z := by
  show mandelLoop (toUInt8 (p.RenderOpts.Contrast % 256)) z (0, 0) 0
      (toUInt8 p.RenderOpts.MaxIterations)
    = mandelLoop (toUInt8 p.RenderOpts.Contrast) z (0, 0) 0
      (toUInt8 p.RenderOpts.MaxIterations)
  rw [show toUInt8 (p.RenderOpts.Contrast % 256) = toUInt8 p.RenderOpts.Contrast from by
    rw [toUInt8, toUInt8, Int.emod_emod_of_dvd _ dvd_rfl]]

/-- C5 (confirmed): whenever the widened channel sums and the sample count
fit in 32 bits — as they do for every list the renderer ever builds, at
most 4 samples of 16-bit channels — `averageColors` equals the spec-order
computation: widen, sum at full precision, divide by the sample count, then
truncate to 8 bits by discarding the low-order bits. -/
theorem C5_average_order (cs : List GoColor)
    (hlen : cs.length < 4294967296)
    (hr : (widenedSums cs).r < 4294967296)
    (hg : (widenedSums cs).g < 4294967296)
    (hb : (widenedSums cs).b < 4294967296)
    (ha : (widenedSums cs).a < 4294967296) :
    averageColors cs = averageColorsSpec cs := by
  by_cases hnil : cs = []
  · rw [hnil]; rfl
  · rw [averageColors, averageColorsSpec, if_neg hnil, if_neg hnil,
      sumRGBA_eq_wcMod, uint32OfLen]
    simp only [wcMod]
    rw [Nat.mod_eq_of_lt hr, Nat.mod_eq_of_lt hg, Nat.mod_eq_of_lt hb,
      Nat.mod_eq_of_lt ha, Nat.mod_eq_of_lt hlen]

/-- C5 witness: a concrete four-sample list (one escaped color, three
black) on which the code average and the spec-order average agree. -/
theorem C5_average_order_witness :
    ([GoColor.rgba ⟨64, 80, 240, 255⟩, GoColor.black, GoColor.black,
        GoColor.black].length < 4294967296) ∧
    ((widenedSums [GoColor.rgba ⟨64, 80, 240, 255⟩, GoColor.black, GoColor.black,
        GoColor.black]).a < 4294967296) ∧
    averageColors [GoColor.rgba ⟨64, 80, 240, 255⟩, GoColor.black, GoColor.black,
        GoColor.black] =
      averageColorsSpec [GoColor.rgba ⟨64, 80, 240, 255⟩, GoColor.black,
        GoColor.black, GoColor.black] :=
  ⟨by decide, by decide,
    C5_average_order _ (by decide) (by decide) (by decide) (by decide) (by decide)⟩

/-- The first validation failure, if any, is exactly characterized by the
disjunction of the three checks. -/
theorem validate_none_iff (p : Parameters) :
    validateParameters p = none ↔
      ¬(p.ViewPort.XMax ≤ p.ViewPort.XMin ∨ p.ViewPort.YMax ≤ p.ViewPort.YMin ∨
        p.Size.Width ≤ 0 ∨ p.Size.Height ≤ 0 ∨ p.RenderOpts.SubPixelSamples ≤ 0) := by
  rw [validateParameters]
  by_cases c1 : p.ViewPort.XMax ≤ p.ViewPort.XMin ∨ p.ViewPort.YMax ≤ p.ViewPort.YMin
  · rw [if_pos c1]
    have hd : p.ViewPort.XMax ≤ p.ViewPort.XMin ∨ p.ViewPort.YMax ≤ p.ViewPort.YMin ∨
        p.Size.Width ≤ 0 ∨ p.Size.Height ≤ 0 ∨ p.RenderOpts.SubPixelSamples ≤ 0 :=
      c1.elim Or.inl (fun h => Or.inr (Or.inl h))
    exact ⟨fun h => Option.noConfusion h, fun h => (h hd).elim⟩
  · rw [if_neg c1]
    by_cases c2 : p.Size.Width ≤ 0 ∨ p.Size.Height ≤ 0
    · rw [if_pos c2]
      have hd : p.ViewPort.XMax ≤ p.ViewPort.XMin ∨ p.ViewPort.YMax ≤ p.ViewPort.YMin ∨
        p.Size.Width ≤ 0 ∨ p.Size.Height ≤ 0 ∨ p.RenderOpts.SubPixelSamples ≤ 0 :=
        c2.elim (fun h => Or.inr (Or.inr (Or.inl h)))
          (fun h => Or.inr (Or.inr (Or.inr (Or.inl h))))
      exact ⟨fun h => Option.noConfusion h, fun h => (h hd).elim⟩
    · rw [if_neg c2]
      by_cases c3 : p.RenderOpts.SubPixelSamples ≤ 0
      · rw [if_pos c3]
        have hd : p.ViewPort.XMax ≤ p.ViewPort.XMin ∨ p.ViewPort.YMax ≤ p.ViewPort.YMin ∨
            p.Size.Width ≤ 0 ∨ p.Size.Height ≤ 0 ∨ p.RenderOpts.SubPixelSamples ≤ 0 :=
          Or.inr (Or.inr (Or.inr (Or.inr c3)))
        exact ⟨fun h => Option.noConfusion h, fun h => (h hd).elim⟩
      · rw [if_neg c3]
        have hnd : ¬(p.ViewPort.XMax ≤ p.ViewPort.XMin ∨ p.ViewPort.YMax ≤ p.ViewPort.YMin ∨
            p.Size.Width ≤ 0 ∨ p.Size.Height ≤ 0 ∨ p.RenderOpts.SubPixelSamples ≤ 0) := by
          rintro (h | h | h | h | h)
          exacts [c1 (Or.inl h), c1 (Or.inr h), c2 (Or.inl h), c2 (Or.inr h), c3 h]
        exact iff_of_true rfl hnd

/-- C6 (confirmed): `NewGenerator` returns an error wrapping
"invalid parameters" — and no generator — exactly when the viewport is
degenerate or inverted, a pixel dimension is non-positive, or the subpixel
sample count is non-positive; otherwise it returns a generator. The check
is made before any rendering work. -/
theorem C6_validation (p : Parameters) :
    ((∃ r, NewGenerator p = Except.error ("invalid parameters: " ++ r)) ↔
      (p.ViewPort.XMax ≤ p.ViewPort.XMin ∨ p.ViewPort.YMax ≤ p.ViewPort.YMin ∨
       p.Size.Width ≤ 0 ∨ p.Size.Height ≤ 0 ∨ p.RenderOpts.SubPixelSamples ≤ 0)) ∧
    ((∃ g, NewGenerator p = Except.ok g) ↔
      ¬(p.ViewPort.XMax ≤ p.ViewPort.XMin ∨ p.ViewPort.YMax ≤ p.ViewPort.YMin ∨
        p.Size.Width ≤ 0 ∨ p.Size.Height ≤ 0 ∨ p.RenderOpts.SubPixelSamples ≤ 0)) := by
  have hv := validate_none_iff p
  constructor
  · constructor
    · rintro ⟨r, hr⟩
      by_contra hno
      rw [NewGenerator, hv.mpr hno] at hr
      exact Except.noConfusion hr
    · intro hdisj
      have hne : validateParameters p ≠ none := fun h => (hv.mp h) hdisj
      obtain ⟨e, he⟩ := Option.ne_none_iff_exists'.mp hne
      exact ⟨e, by rw [NewGenerator, he]⟩
  · constructor
    · rintro ⟨g, hg⟩ hdisj
      have hne : validateParameters p ≠ none := fun h => (hv.mp h) hdisj
      obtain ⟨e, he⟩ := Option.ne_none_iff_exists'.mp hne
      rw [NewGenerator, he] at hg
      exact Except.noConfusion hg
    · intro hno
      exact ⟨⟨p⟩, by rw [NewGenerator, hv.mpr hno]⟩

/-- C10 (amended): `averageColors` returns opaque black on the empty list
instead of dividing by zero; for every non-empty list of fewer than 2^32
colors the divisor is exactly the positive sample count. (For a list whose
length is a non-zero multiple of 2^32 the `uint32` length conversion makes
the divisor zero — see the counterexample.) -/
theorem C10_total :
    averageColors [] = GoColor.black ∧
    ∀ cs : List GoColor, cs ≠ [] → cs.length < 4294967296 →
      uint32OfLen cs = cs.length ∧ 0 < uint32OfLen cs := by
  refine ⟨rfl, fun cs hne hlen => ?_⟩
  have h : uint32OfLen cs = cs.length := Nat.mod_eq_of_lt hlen
  exact ⟨h, by rw [h]; exact List.length_pos.mpr hne⟩

/-- C10 witness: the empty list yields black, and a one-element list gets
divisor 1. -/
theorem C10_total_witness :
    averageColors [] = GoColor.black ∧
    uint32OfLen [GoColor.black] = 1 ∧ 0 < uint32OfLen [GoColor.black] := by
  obtain ⟨h1, h2⟩ := C10_total
  have h3 := h2 [GoColor.black] (by simp) (by norm_num)
  exact ⟨h1, h3.1.trans rfl, h3.2⟩

/-- C10 counterexample: a non-empty list of 2^32 colors has its length
truncated by the `uint32` conversion, so the divisor `averageColors` uses
is 0, not the positive sample count (in Go the division then panics). -/
theorem C10_counterexample :
    uint32OfLen (List.replicate 4294967296 GoColor.black) = 0 ∧
    (List.replicate 4294967296 GoColor.black).length = 4294967296 ∧
    List.replicate 4294967296 GoColor.black ≠ [] := by
  refine ⟨?_, by rw [List.length_replicate], ?_⟩
  · rw [uint32OfLen, List.length_replicate, Nat.mod_self]
  · apply List.ne_nil_of_length_pos
    rw [List.length_replicate]
    norm_num

/-- The color written for any pixel has alpha 255: each of the four samples
has 16-bit alpha 0xffff, and ((4·0xffff) / 4) >> 8 = 255. -/
theorem avg_samples_alpha (g : Generator) (x y sw sh : ℚ) :
    (toRGBA8 (averageColors (g.getSamples x y sw sh))).a = 255 := by
  have h1 : ((g.mandelbrot (x, y)).RGBA).a = 65535 := mandelLoop_alpha _ _ _ _ _
  have h2 : ((g.mandelbrot (x + sw, y)).RGBA).a = 65535 := mandelLoop_alpha _ _ _ _ _
  have h3 : ((g.mandelbrot (x + sw, y + sh)).RGBA).a = 65535 := mandelLoop_alpha _ _ _ _ _
  have h4 : ((g.mandelbrot (x, y + sh)).RGBA).a = 65535 := mandelLoop_alpha _ _ _ _ _
  rw [Generator.getSamples]
  simp only [List.map_cons, List.map_nil]
  rw [averageColors, if_neg (by simp)]
  simp only [sumRGBA, uint32OfLen, List.foldl_cons, List.foldl_nil, List.length_cons,
    List.length_nil, sumStepWrap, toRGBA8]
  simp only [h1, h2, h3, h4]
  decide

/-- C7 (confirmed): for every parameter set accepted by `NewGenerator` and
an un-raised cancellation signal, `Generate` returns a buffer of exactly
width × height in which every in-range pixel holds the averaged four-sample
supersample color of its plane coordinate — and, having alpha 255, no pixel
is left at the zeroed allocation value. -/
theorem C7_full_render (p : Parameters) (g : Generator)
    (hok : NewGenerator p = Except.ok g) :
    ∃ buf : Buffer, g.Generate (fun _ => false) = Except.ok buf ∧
      buf.width = p.Size.Width ∧ buf.height = p.Size.Height ∧
      ∀ px py, px < p.Size.Width.toNat → py < p.Size.Height.toNat →
        buf.data px py =
          toRGBA8 (averageColors (g.getSamples (xcoord g px) (ycoord g py)
            g.samplingWidth g.samplingHeight)) ∧
        (buf.data px py).a = 255 := by
  have hgp : g.params = p := by
    rw [NewGenerator] at hok
    cases hv : validateParameters p with
    | some e => rw [hv] at hok; exact Except.noConfusion hok
    | none => rw [hv] at hok; injection hok with h; rw [← h]
  subst hgp
  obtain ⟨e2, ew, eh, edata⟩ := genRows_no_cancel (fun _ => false) g g.samplingWidth
    g.samplingHeight (fun _ => rfl) g.params.Size.Height.toNat 0
    (newRGBA g.params.Size.Width g.params.Size.Height)
  refine ⟨_, ?_, ew.trans rfl, eh.trans rfl, ?_⟩
  · simp only [Generator.Generate]
    rw [e2]
  · intro px py hpx hpy
    have hd := edata px py
    rw [if_pos ⟨hpx, Nat.zero_le py, by omega⟩] at hd
    exact ⟨hd, by rw [hd]; exact avg_samples_alpha g _ _ _ _⟩

/-- C7 witness: the 1×1 single-iteration parameter set renders its one
pixel as the average of four in-set samples, opaque black. -/
theorem C7_full_render_witness :
    (NewGenerator paramsUnit = Except.ok (Generator.mk paramsUnit)) ∧
    ((Generator.mk paramsUnit).Generate (fun _ => false)).map
        (fun b => (b.width, b.height, b.data 0 0)) =
      Except.ok ((1 : Int), (1 : Int), (⟨0, 0, 0, 255⟩ : RGBA8)) := by
  have hok : NewGenerator paramsUnit = Except.ok (Generator.mk paramsUnit) := rfl
  refine ⟨hok, ?_⟩
  obtain ⟨buf, hgen, hw, hh, hdata⟩ := C7_full_render paramsUnit ⟨paramsUnit⟩ hok
  obtain ⟨hd, _⟩ := hdata 0 0 (by decide) (by decide)
  have hb : ∀ pt : ℚ × ℚ, normSq (mandelSeq pt 0) ≤ 4 →
      (Generator.mk paramsUnit).mandelbrot pt = GoColor.black := by
    intro pt hpt
    apply (mandelbrot_black_iff _ _).mpr
    intro n hn
    have hn1 : n < 1 := hn
    have : n = 0 := by omega
    rw [this]; exact hpt
  have hsamples : (Generator.mk paramsUnit).getSamples
      (xcoord (Generator.mk paramsUnit) 0) (ycoord (Generator.mk paramsUnit) 0)
      (Generator.mk paramsUnit).samplingWidth (Generator.mk paramsUnit).samplingHeight
      = [GoColor.black, GoColor.black, GoColor.black, GoColor.black] := by
    rw [Generator.getSamples]
    simp only [List.map_cons, List.map_nil]
    rw [hb _ (by norm_num [mandelSeq, cstep, normSq, xcoord, ycoord,
          Generator.samplingWidth, Generator.samplingHeight, paramsUnit]),
      hb _ (by norm_num [mandelSeq, cstep, normSq, xcoord, ycoord,
          Generator.samplingWidth, Generator.samplingHeight, paramsUnit]),
      hb _ (by norm_num [mandelSeq, cstep, normSq, xcoord, ycoord,
          Generator.samplingWidth, Generator.samplingHeight, paramsUnit]),
      hb _ (by norm_num [mandelSeq, cstep, normSq, xcoord, ycoord,
          Generator.samplingWidth, Generator.samplingHeight, paramsUnit])]
  rw [hgen]
  show Except.ok (buf.width, buf.height, buf.data 0 0) = _
  rw [hw, hh, hd, hsamples]
  rfl

/-- C8 (confirmed): for every parameter set accepted by `NewGenerator`, an
already-raised cancellation signal makes `Generate` return the wrapped
row-processing cancellation error and no buffer; and within a row the
signal is checked before each pixel: a signal first observed at the check
preceding column k aborts the row at once with the cancellation error,
with exactly the already-written columns (those before k) in place and
every other cell untouched. -/
theorem C8_cancellation (p : Parameters) (g : Generator)
    (hok : NewGenerator p = Except.ok g) :
    g.Generate (fun _ => true) =
      Except.error ("error processing row: context canceled") ∧
    ∀ (ctx : Nat → Bool) (k : Nat), (∀ i, ctx i = decide (k ≤ i)) →
      k < p.Size.Width.toNat → ∀ (py : Nat) (buf : Buffer),
        (g.processRow ctx py buf g.samplingWidth g.samplingHeight).2 =
          some "context canceled" ∧
        ∀ px' py',
          (g.processRow ctx py buf g.samplingWidth g.samplingHeight).1.data px' py' =
            if px' < k ∧ py' = py
            then rowPixel g (ycoord g py) g.samplingWidth g.samplingHeight px'
            else buf.data px' py' := by
  have hgp : g.params = p := by
    rw [NewGenerator] at hok
    cases hv : validateParameters p with
    | some e => rw [hv] at hok; exact Except.noConfusion hok
    | none => rw [hv] at hok; injection hok with h; rw [← h]
  subst hgp
  have hvalid : validateParameters g.params = none := by
    rw [NewGenerator] at hok
    cases hv : validateParameters g.params with
    | some e => rw [hv] at hok; exact Except.noConfusion hok
    | none => rfl
  have hno := (validate_none_iff g.params).mp hvalid
  have hW : ¬g.params.Size.Width ≤ 0 := fun h => hno (Or.inr (Or.inr (Or.inl h)))
  have hH : ¬g.params.Size.Height ≤ 0 := fun h =>
    hno (Or.inr (Or.inr (Or.inr (Or.inl h))))
  have hWpos : 0 < g.params.Size.Width.toNat := by omega
  have hHpos : 0 < g.params.Size.Height.toNat := by omega
  constructor
  · simp only [Generator.Generate]
    rw [genRows_cancelled g _ _ hWpos]
    obtain ⟨hn, hHn⟩ := Nat.exists_eq_succ_of_ne_zero (Nat.pos_iff_ne_zero.mp hHpos)
    rw [hHn, List.replicate_succ]
    rfl
  · intro ctx k hsig hk py buf
    obtain ⟨h2, _, _, hdata⟩ := rowLoop_cancel ctx g py (ycoord g py)
      g.samplingWidth g.samplingHeight k hsig g.params.Size.Width.toNat 0 buf
      (Nat.zero_le k) (by omega)
    refine ⟨h2, fun px' py' => ?_⟩
    have hd : (g.processRow ctx py buf g.samplingWidth g.samplingHeight).1.data px' py' =
        if 0 ≤ px' ∧ px' < k ∧ py' = py
        then rowPixel g (ycoord g py) g.samplingWidth g.samplingHeight px'
        else buf.data px' py' := hdata px' py'
    rw [hd]
    by_cases hc : px' < k ∧ py' = py
    · rw [if_pos ⟨Nat.zero_le _, hc.1, hc.2⟩, if_pos hc]
    · rw [if_neg (fun hcc => hc ⟨hcc.2.1, hcc.2.2⟩), if_neg hc]

/-- C8 witness: on the 1×1 valid parameter set with the signal raised from
the start, `Generate` fails with the wrapped cancellation error, and a row
fails before writing its first pixel. -/
theorem C8_cancellation_witness :
    (NewGenerator paramsUnit = Except.ok (Generator.mk paramsUnit)) ∧
    (Generator.mk paramsUnit).Generate (fun _ => true) =
      Except.error ("error processing row: context canceled") ∧
    ((Generator.mk paramsUnit).processRow (fun _ => true) 0 (newRGBA 1 1)
        (Generator.mk paramsUnit).samplingWidth
        (Generator.mk paramsUnit).samplingHeight).2 = some "context canceled" ∧
    ((Generator.mk paramsUnit).processRow (fun _ => true) 0 (newRGBA 1 1)
        (Generator.mk paramsUnit).samplingWidth
        (Generator.mk paramsUnit).samplingHeight).1.data 0 0 = ⟨0, 0, 0, 0⟩ := by
  have h := C8_cancellation paramsUnit ⟨paramsUnit⟩ rfl
  have h2 := h.2 (fun _ => true) 0 (fun i => (decide_eq_true (Nat.zero_le i)).symm)
    (by decide) 0 (newRGBA 1 1)
  refine ⟨rfl, h.1, h2.1, ?_⟩
  rw [h2.2 0 0, if_neg (by omega)]
  rfl

end Mandel
